import Mathlib

/-
Verification of the implicit-component core of this repository.

The repository ships two source files: the implicit-component test module
(defining QuadraticComp, QuadraticLinearize, QuadraticJacVec, several
ImpWithInitial variants and the test scenarios) and the class utility
overrides_method.  Component-level methods (apply_nonlinear,
solve_nonlinear, linearize, solve_linear, apply_linear, guess_nonlinear)
are embedded directly from that source.  The framework that orchestrates
them (Problem.run_model, compute_totals, NewtonSolver, transfers,
list_inputs and list_outputs) is not part of the source tree; where a
property depends on it, the orchestration is modelled from the spec, and
each such definition says so in its doc comment.

Numeric values are embedded as exact rationals (or reals where a square
root is required); the floating-point tolerance of the tests corresponds
to exact equality or explicit rational bounds here.
-/

namespace OpenMDAO

/-! ## QuadraticComp (embedded from the source test module)

R(a, b, c, x) = a*x^2 + b*x + c, with direct solution by the quadratic
formula taking the positive branch of the square root. -/

/-- QuadraticComp.apply_nonlinear: residuals['x'] = a * x ** 2 + b * x + c. -/
def apply_nonlinear (a b c x : ℚ) : ℚ :=
  a * x ^ 2 + b * x + c

/-- QuadraticComp.solve_nonlinear: outputs['x'] = (-b + (b ** 2 - 4 * a * c) ** 0.5) / (2 * a).
Embedded over the reals because of the square root. -/
noncomputable def solve_nonlinear (a b c : ℝ) : ℝ :=
  (-b + Real.sqrt (b ^ 2 - 4 * a * c)) / (2 * a)

/-- Default declared values in QuadraticComp.setup: add_output('x', val=0.). -/
def quad_default_x : ℚ := 0

/-- Modelled from the spec: run_model on the setUp problem of
ImplicitCompTestCase.  The group owns no nonlinear solver, so run_model
walks the hierarchy in topological order: it evaluates the IndepVarComp
comp1 (outputs a=1.0, b=-4.0, c=3.0), transfers them along the declared
connections into comp2 and comp3, and evaluates each quadratic
component by its direct solve (solve_nonlinear).  The value read back
for comp2.x is therefore solve_nonlinear at (1, -4, 3). -/
noncomputable def run_model_comp2_x : ℝ :=
  solve_nonlinear 1 (-4) 3

lemma sqrt_four : Real.sqrt 4 = 2 := by
  rw [show (4 : ℝ) = 2 ^ 2 by norm_num, Real.sqrt_sq (by norm_num : (0:ℝ) ≤ 2)]

lemma solve_nonlinear_one_negfour_three : solve_nonlinear 1 (-4) 3 = 3 := by
  unfold solve_nonlinear
  rw [show ((-4 : ℝ)) ^ 2 - 4 * 1 * 3 = 4 by norm_num, sqrt_four]
  norm_num

/-- C1 counterexample: on the setUp problem with a=1, b=-4, c=3, running
run_model and reading comp2.x does not give 1 (it gives 3: the direct
solve takes the positive branch of the quadratic formula, and the test
itself asserts 3). -/
theorem C1_counterexample : run_model_comp2_x ≠ 1 := by
  unfold run_model_comp2_x
  rw [solve_nonlinear_one_negfour_three]
  norm_num

/-- C1 (amended): for the quadratic residual component with inputs a=1,
b=-4, c=3, running run_model from the default starting value and reading
the component output x yields x = 3. -/
theorem C1_amended_run_model_gives_three : run_model_comp2_x = 3 := by
  unfold run_model_comp2_x
  exact solve_nonlinear_one_negfour_three

/-! ## QuadraticLinearize (embedded from the source test module)

linearize assembles the four analytic entries of the residual Jacobian
and caches inv_jac = 1 / (2*a*x + b); solve_linear applies inv_jac (the
inverse of the state-Jacobian block) in forward mode, and its transpose
inverse (the same scalar) in reverse mode. -/

/-- QuadraticLinearize.linearize entry: partials['x', 'a'] = x ** 2. -/
def linearize_xa (x : ℚ) : ℚ := x ^ 2

/-- QuadraticLinearize.linearize entry: partials['x', 'b'] = x. -/
def linearize_xb (x : ℚ) : ℚ := x

/-- QuadraticLinearize.linearize entry: partials['x', 'c'] = 1.0. -/
def linearize_xc : ℚ := 1

/-- QuadraticLinearize.linearize entry: partials['x', 'x'] = 2 * a * x + b. -/
def linearize_xx (a b x : ℚ) : ℚ := 2 * a * x + b

/-- Cached by linearize in both QuadraticLinearize and QuadraticJacVec:
self.inv_jac = 1.0 / (2 * a * x + b). -/
def inv_jac (a b x : ℚ) : ℚ := 1 / (2 * a * x + b)

/-- QuadraticLinearize.solve_linear and QuadraticJacVec.solve_linear
(textually identical in the source), forward mode:
d_outputs['x'] = self.inv_jac * d_residuals['x']. -/
def solve_linear_fwd (a b x dr : ℚ) : ℚ := inv_jac a b x * dr

/-- QuadraticLinearize.solve_linear and QuadraticJacVec.solve_linear
(textually identical in the source), reverse mode:
d_residuals['x'] = self.inv_jac * d_outputs['x']. -/
def solve_linear_rev (a b x dout : ℚ) : ℚ := inv_jac a b x * dout

/-! ## QuadraticJacVec.apply_linear (embedded from the source test module)

The seed dictionaries are embedded as one state record: the current
inputs a, b, c and output x, the seed values da, db, dc (entries of
d_inputs), dx (the d_outputs entry) and dr (the d_residuals entry), and
one membership flag per seed entry corresponding to the source guards
such as if 'a' in d_inputs. -/

structure ALState where
  a : ℚ
  b : ℚ
  c : ℚ
  x : ℚ
  da : ℚ
  db : ℚ
  dc : ℚ
  dx : ℚ
  dr : ℚ
  has_da : Bool
  has_db : Bool
  has_dc : Bool
  has_dx : Bool
  has_dr : Bool
deriving DecidableEq

/-- QuadraticJacVec.apply_linear.  In forward mode it accumulates into
d_residuals['x'] the products of the Jacobian entries with the present
seeds (d_outputs first, then d_inputs in the order a, b, c); in reverse
mode it accumulates the transposed products into d_outputs['x'] and the
present d_inputs entries; any other mode string leaves every vector
untouched.  Guard order and accumulation order follow the source. -/
def apply_linear (mode : String) (s : ALState) : ALState :=
  if mode = "fwd" then
    if s.has_dr then
      let s1 := if s.has_dx then { s with dr := s.dr + (2 * s.a * s.x + s.b) * s.dx } else s
      let s2 := if s1.has_da then { s1 with dr := s1.dr + s1.x ^ 2 * s1.da } else s1
      let s3 := if s2.has_db then { s2 with dr := s2.dr + s2.x * s2.db } else s2
      if s3.has_dc then { s3 with dr := s3.dr + s3.dc } else s3
    else s
  else if mode = "rev" then
    if s.has_dr then
      let s1 := if s.has_dx then { s with dx := s.dx + (2 * s.a * s.x + s.b) * s.dr } else s
      let s2 := if s1.has_da then { s1 with da := s1.da + s1.x ^ 2 * s1.dr } else s1
      let s3 := if s2.has_db then { s2 with db := s2.db + s2.x * s2.dr } else s2
      if s3.has_dc then { s3 with dc := s3.dc + s3.dr } else s3
    else s
  else s

/-- C7: at any fixed state (a, b, c, x) and for any common membership
pattern of the seed dictionaries, apply_linear in forward and reverse
mode realize a matrix and its transpose: the forward accumulation into
d_residuals, paired with the reverse seed w, equals the inner product of
the forward seed vector (da, db, dc, dx) with the reverse accumulation
into (d_inputs, d_outputs). -/
theorem C7_apply_linear_transpose_pairing
    (a b c x va vb vc vx r0 ia ib ic ix w : ℚ)
    (fa fb fc fx fr : Bool) :
    ((apply_linear "fwd" ⟨a, b, c, x, va, vb, vc, vx, r0, fa, fb, fc, fx, fr⟩).dr - r0) * w
      = va * ((apply_linear "rev" ⟨a, b, c, x, ia, ib, ic, ix, w, fa, fb, fc, fx, fr⟩).da - ia)
      + vb * ((apply_linear "rev" ⟨a, b, c, x, ia, ib, ic, ix, w, fa, fb, fc, fx, fr⟩).db - ib)
      + vc * ((apply_linear "rev" ⟨a, b, c, x, ia, ib, ic, ix, w, fa, fb, fc, fx, fr⟩).dc - ic)
      + vx * ((apply_linear "rev" ⟨a, b, c, x, ia, ib, ic, ix, w, fa, fb, fc, fx, fr⟩).dx - ix) := by
  cases fa <;> cases fb <;> cases fc <;> cases fx <;> cases fr <;>
    simp [apply_linear] <;> ring

/-- C8: after linearize has cached inv_jac at a state with
2*a*x + b different from zero, solve_linear applies the inverse of the
state-Jacobian block: multiplying its forward result by 2*a*x + b
recovers the given d_residuals seed, and multiplying its reverse result
by 2*a*x + b recovers the given d_outputs seed.  Both quadratic
components share this solve_linear body. -/
theorem C8_solve_linear_inverts_state_jacobian
    (a b x dr dout : ℚ) (h : 2 * a * x + b ≠ 0) :
    linearize_xx a b x * solve_linear_fwd a b x dr = dr ∧
    linearize_xx a b x * solve_linear_rev a b x dout = dout := by
  unfold linearize_xx solve_linear_fwd solve_linear_rev inv_jac
  constructor <;> field_simp

/-- C8 witness: concrete instance at a=1, b=-4, x=3 (so 2*a*x + b = 2),
with seeds 5 and 7. -/
theorem C8_witness :
    linearize_xx 1 (-4) 3 * solve_linear_fwd 1 (-4) 3 5 = 5 ∧
    linearize_xx 1 (-4) 3 * solve_linear_rev 1 (-4) 3 7 = 7 :=
  C8_solve_linear_inverts_state_jacobian 1 (-4) 3 5 7 (by norm_num)

/-- C10: apply_linear only mutates the result side of the requested
mode.  Forward mode leaves the inputs, the output, every seed other
than d_residuals, and all membership flags unchanged; reverse mode
leaves the inputs, the output, d_residuals and all membership flags
unchanged; any mode string other than fwd and rev returns the state
unchanged. -/
theorem C10_apply_linear_frame (s : ALState) :
    ((apply_linear "fwd" s).a = s.a ∧ (apply_linear "fwd" s).b = s.b ∧
     (apply_linear "fwd" s).c = s.c ∧ (apply_linear "fwd" s).x = s.x ∧
     (apply_linear "fwd" s).da = s.da ∧ (apply_linear "fwd" s).db = s.db ∧
     (apply_linear "fwd" s).dc = s.dc ∧ (apply_linear "fwd" s).dx = s.dx ∧
     (apply_linear "fwd" s).has_da = s.has_da ∧ (apply_linear "fwd" s).has_db = s.has_db ∧
     (apply_linear "fwd" s).has_dc = s.has_dc ∧ (apply_linear "fwd" s).has_dx = s.has_dx ∧
     (apply_linear "fwd" s).has_dr = s.has_dr) ∧
    ((apply_linear "rev" s).a = s.a ∧ (apply_linear "rev" s).b = s.b ∧
     (apply_linear "rev" s).c = s.c ∧ (apply_linear "rev" s).x = s.x ∧
     (apply_linear "rev" s).dr = s.dr ∧
     (apply_linear "rev" s).has_da = s.has_da ∧ (apply_linear "rev" s).has_db = s.has_db ∧
     (apply_linear "rev" s).has_dc = s.has_dc ∧ (apply_linear "rev" s).has_dx = s.has_dx ∧
     (apply_linear "rev" s).has_dr = s.has_dr) ∧
    (∀ m : String, m ≠ "fwd" → m ≠ "rev" → apply_linear m s = s) := by
  refine ⟨?_, ?_, ?_⟩
  · cases hfa : s.has_da <;> cases hfb : s.has_db <;> cases hfc : s.has_dc <;>
      cases hfx : s.has_dx <;> cases hfr : s.has_dr <;>
      simp [apply_linear, hfa, hfb, hfc, hfx, hfr]
  · cases hfa : s.has_da <;> cases hfb : s.has_db <;> cases hfc : s.has_dc <;>
      cases hfx : s.has_dx <;> cases hfr : s.has_dr <;>
      simp [apply_linear, hfa, hfb, hfc, hfx, hfr]
  · intro m hm1 hm2
    simp [apply_linear, hm1, hm2]

/-- C10 witness: concrete instance, including a mode string that is
neither fwd nor rev leaving a concrete state untouched. -/
theorem C10_witness :
    apply_linear "lin" ⟨1, -4, 3, 3, 1, 1, 1, 1, 1, true, true, true, true, true⟩
      = ⟨1, -4, 3, 3, 1, 1, 1, 1, 1, true, true, true, true, true⟩ :=
  (C10_apply_linear_frame ⟨1, -4, 3, 3, 1, 1, 1, 1, 1, true, true, true, true, true⟩).2.2
    "lin" (by decide) (by decide)

/-! ## Total-derivative engine (modelled from the spec) -/

/-- Independent (wrt) variables of the compute_totals call in
test_compute_and_derivs: comp1.a, comp1.b, comp1.c. -/
inductive WrtVar
  | a
  | b
  | c
deriving DecidableEq

/-- Modelled from the spec: forward-mode total-derivative engine for the
analytic path (QuadraticLinearize).  compute_totals is not in the source
tree; per the spec it seeds one unit vector at the wrt variable, forms
the residual seed from the declared analytic entries of linearize, and
invokes the component-supplied linear solve on the negated seed to
obtain the total derivative of x with respect to that variable. -/
def total_fwd_linearize (av bv xv : ℚ) (w : WrtVar) : ℚ :=
  let dres : ℚ :=
    match w with
    | .a => linearize_xa xv
    | .b => linearize_xb xv
    | .c => linearize_xc
  solve_linear_fwd av bv xv (-dres)

/-- Modelled from the spec: reverse-mode total-derivative engine for the
analytic path.  It seeds one unit vector at the dependent output x,
applies the component-supplied reverse linear solve, and accumulates the
transposed analytic entries against the negated residual seed. -/
def total_rev_linearize (av bv xv : ℚ) (w : WrtVar) : ℚ :=
  let dr := solve_linear_rev av bv xv 1
  match w with
  | .a => -dr * linearize_xa xv
  | .b => -dr * linearize_xb xv
  | .c => -dr * linearize_xc

/-- Modelled from the spec: forward-mode total-derivative engine for the
matrix-free path (QuadraticJacVec).  Instead of assembled entries, the
residual seed is produced by the component apply_linear operator applied
in forward mode to the unit seed at the wrt variable (with the output
seed zero), and the component-supplied linear solve finishes the job. -/
def total_fwd_jacvec (av bv cv xv : ℚ) (w : WrtVar) : ℚ :=
  let seed : ℚ × ℚ × ℚ :=
    match w with
    | .a => (1, 0, 0)
    | .b => (0, 1, 0)
    | .c => (0, 0, 1)
  let s0 : ALState :=
    { a := av, b := bv, c := cv, x := xv
      da := seed.1, db := seed.2.1, dc := seed.2.2
      dx := 0, dr := 0
      has_da := true, has_db := true, has_dc := true
      has_dx := true, has_dr := true }
  solve_linear_fwd av bv xv (-(apply_linear "fwd" s0).dr)

/-- Modelled from the spec: reverse-mode total-derivative engine for the
matrix-free path.  The unit seed at the output x is pushed through the
component reverse linear solve, negated, and fed to apply_linear in
reverse mode; the accumulations appearing in d_inputs are the total
derivatives. -/
def total_rev_jacvec (av bv cv xv : ℚ) (w : WrtVar) : ℚ :=
  let dr := solve_linear_rev av bv xv 1
  let s0 : ALState :=
    { a := av, b := bv, c := cv, x := xv
      da := 0, db := 0, dc := 0, dx := 0, dr := -dr
      has_da := true, has_db := true, has_dc := true
      has_dx := false, has_dr := true }
  let s1 := apply_linear "rev" s0
  match w with
  | .a => s1.da
  | .b => s1.db
  | .c => s1.dc

/-- C2: at the converged state a=1, b=-4, c=3, x=3, compute_totals of
comp.x with respect to (a, b, c) yields (-4.5, -1.5, -0.5), and the
analytic-entries path (QuadraticLinearize) and the matrix-free
apply_linear path (QuadraticJacVec) agree on these values in both
forward and reverse mode. -/
theorem C2_compute_totals_values :
    total_fwd_linearize 1 (-4) 3 .a = -9/2 ∧
    total_fwd_linearize 1 (-4) 3 .b = -3/2 ∧
    total_fwd_linearize 1 (-4) 3 .c = -1/2 ∧
    total_rev_linearize 1 (-4) 3 .a = -9/2 ∧
    total_rev_linearize 1 (-4) 3 .b = -3/2 ∧
    total_rev_linearize 1 (-4) 3 .c = -1/2 ∧
    total_fwd_jacvec 1 (-4) 3 3 .a = -9/2 ∧
    total_fwd_jacvec 1 (-4) 3 3 .b = -3/2 ∧
    total_fwd_jacvec 1 (-4) 3 3 .c = -1/2 ∧
    total_rev_jacvec 1 (-4) 3 3 .a = -9/2 ∧
    total_rev_jacvec 1 (-4) 3 3 .b = -3/2 ∧
    total_rev_jacvec 1 (-4) 3 3 .c = -1/2 := by
  refine ⟨?_, ?_, ?_, ?_, ?_, ?_, ?_, ?_, ?_, ?_, ?_, ?_⟩ <;>
  · simp only [total_fwd_linearize, total_rev_linearize, total_fwd_jacvec,
      total_rev_jacvec, solve_linear_fwd, solve_linear_rev, inv_jac,
      linearize_xa, linearize_xb, linearize_xc, apply_linear]
    try simp
    try norm_num

/-! ## Newton iteration (modelled from the spec) -/

/-- Modelled from the spec: one Newton update on the quadratic
component.  The residual is the source apply_nonlinear and the state
Jacobian entry is the source linearize entry partials['x', 'x']; the
update is x plus the step solving J * step = -R, with unit relaxation. -/
def newtonStep (a b c x : ℚ) : ℚ :=
  x - apply_nonlinear a b c x / linearize_xx a b x

/-- Modelled from the spec: the Newton iterate sequence from a starting
value x0. -/
def newtonIter (a b c x0 : ℚ) : Nat → ℚ
  | 0 => x0
  | n + 1 => newtonStep a b c (newtonIter a b c x0 n)

/-- ImpWithInitial.guess_nonlinear in test_guess_nonlinear:
outputs['x'] = 5.0. -/
def impWithInitial_guess_x : ℚ := 5

/-- C3: with a=1, b=-4, c=3, the guess hook value 5 drives the Newton
solve (modelled from the spec, since solve_nonlinear of the overriding
component does nothing) to within the test tolerance of the alternate
root 3, while from the default starting value 0 the same iteration lands
within tolerance of the other root 1; both 1 and 3 are exact roots of
the residual. -/
theorem C3_guess_selects_alternate_root :
    |newtonIter 1 (-4) 3 impWithInitial_guess_x 6 - 3| < 1/1000000 ∧
    |newtonIter 1 (-4) 3 quad_default_x 6 - 1| < 1/1000000 ∧
    apply_nonlinear 1 (-4) 3 3 = 0 ∧
    apply_nonlinear 1 (-4) 3 1 = 0 := by
  refine ⟨?_, ?_, by norm_num [apply_nonlinear], by norm_num [apply_nonlinear]⟩ <;>
  · rw [abs_sub_lt_iff]
    norm_num [newtonIter, newtonStep, apply_nonlinear, linearize_xx,
      impWithInitial_guess_x, quad_default_x]

/-! ## Guess-and-transfer chain (test_guess_nonlinear_transfer and its
subbed variants)

The model is the chain px.x -> comp1.x -> comp1.y -> comp2.x -> comp2.y
with two ImpWithInitial components whose guess_nonlinear passes the
input through to the output; solve_nonlinear does nothing and
apply_nonlinear writes only a constant residual, so the component
outputs are determined entirely by the guess and transfer sequence. -/

structure ChainState where
  px_x : ℚ
  c1_x : ℚ
  c1_y : ℚ
  c2_x : ℚ
  c2_y : ℚ
deriving DecidableEq

/-- Initial values from the source: IndepVarComp('x', 77.0) and the
ImpWithInitial setup defaults add_input('x', 3.0), add_output('y', 4.0)
for both components. -/
def chainInit : ChainState := ⟨77, 3, 4, 3, 4⟩

/-- Transfer along the source connection px.x -> comp1.x. -/
def transfer_px_c1 (s : ChainState) : ChainState := { s with c1_x := s.px_x }

/-- Transfer along the source connection comp1.y -> comp2.x. -/
def transfer_c1_c2 (s : ChainState) : ChainState := { s with c2_x := s.c1_y }

/-- ImpWithInitial.guess_nonlinear on comp1: outputs['y'] = inputs['x']. -/
def guess_c1 (s : ChainState) : ChainState := { s with c1_y := s.c1_x }

/-- ImpWithInitial.guess_nonlinear on comp2: outputs['y'] = inputs['x']. -/
def guess_c2 (s : ChainState) : ChainState := { s with c2_y := s.c2_x }

/-- Modelled from the spec: the single Newton iteration (maxiter = 1)
of the solver attached at the top group.  The solve first transfers
every connection in its scope (px.x -> comp1.x, comp1.y -> comp2.x),
then runs the guess hooks once in topological order, transferring each
guessed output to its downstream-connected input before that downstream
system's own guess and evaluation.  The residual evaluation and state
update leave the outputs unchanged: solve_nonlinear of both components
does nothing and no Jacobian information is declared, so the Newton
update contributes no change to y. -/
def newton_top_solve (s : ChainState) : ChainState :=
  guess_c2 (transfer_c1_c2 (guess_c1 (transfer_c1_c2 (transfer_px_c1 s))))

/-- Modelled from the spec: run_model when the Newton solver is
attached at the inner sub group.  The top group, in topological order,
evaluates px and transfers px.x into sub (connection
px.x -> sub.comp1.x); the sub solve then performs its own first
transfer over the in-sub connection sub.comp1.y -> sub.comp2.x and runs
the cascading guess hooks, as above with the outer transfer done
first. -/
def newton_sub_solve (s : ChainState) : ChainState :=
  guess_c2 (transfer_c1_c2 (guess_c1 (transfer_c1_c2 (transfer_px_c1 s))))

/-- C4: with the source value 77 and passthrough guesses, one Newton
iteration converges the chain to comp2.y = 77, whether the solver is
attached at the top group or at the inner sub group. -/
theorem C4_chain_converges_both_placements :
    (newton_top_solve chainInit).c2_y = 77 ∧
    (newton_sub_solve chainInit).c2_y = 77 := by
  constructor <;> rfl

/-- C5: the value set by comp1's guess hook on comp1.y is transferred
to comp2.x before comp2's own guess and evaluation in the same solve:
immediately after that transfer comp2.x holds 77, which equals the
guessed comp1.y, and the solve then finishes with comp2.y = 77. -/
theorem C5_guess_then_transfer_ordering :
    (transfer_c1_c2 (guess_c1 (transfer_c1_c2 (transfer_px_c1 chainInit)))).c2_x = 77 ∧
    (transfer_c1_c2 (guess_c1 (transfer_c1_c2 (transfer_px_c1 chainInit)))).c2_x
      = (guess_c1 (transfer_c1_c2 (transfer_px_c1 chainInit))).c1_y ∧
    (newton_top_solve chainInit).c2_y = 77 := by
  refine ⟨rfl, rfl, rfl⟩

/-! ## Reporting surface before run (modelled from the spec) -/

/-- Error raised by the reporting surface when variable values are
queried before any run: the source test expects the messages
Unable to list inputs until model has been run. and
Unable to list outputs until model has been run. -/
inductive ReportError
  | NotYetRun (msg : String)
deriving DecidableEq

/-- Modelled from the spec: the queryable state of a Problem for the
reporting collaborator: whether setup has completed, whether run_model
has completed at least once, and the flat name-to-value maps. -/
structure ProblemState where
  is_setup : Bool
  has_run : Bool
  input_vals : List (String × ℚ)
  output_vals : List (String × ℚ)

/-- Modelled from the spec: list_inputs on the model.  The reporting
surface must refuse to answer value queries before at least one
run_model call. -/
def list_inputs (p : ProblemState) : Except ReportError (List (String × ℚ)) :=
  if p.has_run then .ok p.input_vals
  else .error (.NotYetRun "Unable to list inputs until model has been run.")

/-- Modelled from the spec: list_outputs on the model, refusing before
the first run_model call. -/
def list_outputs (p : ProblemState) : Except ReportError (List (String × ℚ)) :=
  if p.has_run then .ok p.output_vals
  else .error (.NotYetRun "Unable to list outputs until model has been run.")

/-- C6: for every model that has been set up but not yet run, listing
inputs or outputs fails with the NotYetRun error carrying the message
the source test expects. -/
theorem C6_list_before_run_refused
    (p : ProblemState) (hsetup : p.is_setup = true) (hrun : p.has_run = false) :
    list_inputs p = .error (.NotYetRun "Unable to list inputs until model has been run.") ∧
    list_outputs p = .error (.NotYetRun "Unable to list outputs until model has been run.") := by
  unfold list_inputs list_outputs
  rw [hrun]
  exact ⟨rfl, rfl⟩

/-- C6 witness: the setUp problem of ImplicitCompTestCase right after
setup, before any run. -/
theorem C6_witness :
    list_inputs ⟨true, false, [], []⟩
      = .error (.NotYetRun "Unable to list inputs until model has been run.") ∧
    list_outputs ⟨true, false, [], []⟩
      = .error (.NotYetRun "Unable to list outputs until model has been run.") :=
  C6_list_before_run_refused ⟨true, false, [], []⟩ rfl rfl

/-! ## overrides_method (embedded from class_util.py) -/

/-- Python class embedded for the method-resolution-order scan: its
identity and the method names defined in its own namespace dict. -/
structure PyClass where
  cname : String
  cdict : List String
deriving DecidableEq

/-- overrides_method from class_util.py: walk obj.__class__.__mro__ and,
at the first class whose own dict defines the method name, return
whether that class is not base; return False when no class defines
it. -/
def overrides_method (method_name : String) (mro : List PyClass) (base : PyClass) : Bool :=
  match mro with
  | [] => false
  | klass :: rest =>
      if method_name ∈ klass.cdict then decide (klass ≠ base)
      else overrides_method method_name rest base

/-- C9: overrides_method returns True exactly when the first class of
the method-resolution order whose own dict defines the method exists
and differs from base; in particular it is True when a proper subclass
redefines the method first and False when base is the first (or only)
definer, or when no class defines it. -/
theorem C9_overrides_method_characterization
    (m : String) (mro : List PyClass) (base : PyClass) :
    overrides_method m mro base = true ↔
    ∃ k, mro.find? (fun c => decide (m ∈ c.cdict)) = some k ∧ k ≠ base := by
  induction mro with
  | nil =>
      simp [overrides_method]
  | cons klass rest ih =>
      by_cases hmem : m ∈ klass.cdict
      · simp [overrides_method, List.find?, hmem]
      · simp [overrides_method, List.find?, hmem, ih]

end OpenMDAO
